import Mathlib

/-!
Verification development for the dynablox lidar motion detection core.

The definitions below are a shallow embedding of the two source files
`src/lidar_motion_detection/src/processing/ever_free_integrator.cpp` and
`src/lidar_motion_detection/src/motion_detector.cpp`.  Machine integers are
modelled as unbounded integers, the floating point `distance` and `weight`
fields as rationals, and the sparse voxblox TSDF layer as a set of allocated
block indices together with a total voxel-content function on global voxel
indices (voxels exist exactly when their owning block is allocated).  Points
are identified with the global index of the voxel they fall into, since
coordinate quantization is provided by the external voxblox map.
-/

namespace Dynablox

/-- Global voxel index (x, y, z). -/
abbrev GIdx := ℤ × ℤ × ℤ

/-- Block index (x, y, z). -/
abbrev BIdx := ℤ × ℤ × ℤ

/-- The voxblox TsdfVoxel record with the fields read or written by the two
source files: `distance`, `weight`, `occ_counter`, `last_occupied`,
`last_lidar_occupied`, `ever_free`, `dynamic` (used by the standalone
integrator) and `curr_occupied`, `last_static`, `moving`,
`clustering_processed` (used by the orchestrator-embedded integrator). -/
structure TsdfVoxel where
  distance : ℚ
  weight : ℚ
  occ_counter : ℤ
  last_occupied : ℤ
  last_lidar_occupied : ℤ
  curr_occupied : ℤ
  last_static : ℤ
  ever_free : Bool
  dynamic : Bool
  moving : Bool
  clustering_processed : Bool
deriving DecidableEq, Repr

/-- The EverFreeIntegrator::Config (ever_free_integrator.cpp lines 16-31). -/
structure Config where
  counter_to_reset : ℤ
  temporal_buffer : ℤ
  burn_in_period : ℤ
  tsdf_occupancy_threshold : ℚ
  neighbor_connectivity : ℕ
deriving DecidableEq, Repr

/-- A sparse TSDF layer: voxels per block side, the set of allocated blocks,
voxel contents by global index, and the list of blocks whose kEsdf updated
flag is currently set (the flag lives inside a block in voxblox). -/
structure Layer where
  vps : ℤ
  blocks : List BIdx
  vox : GIdx → TsdfVoxel
  updated : List BIdx

/-- Whether a block is allocated (voxblox Layer::getBlockPtrByIndex non-null). -/
def Layer.hasBlock (L : Layer) (b : BIdx) : Bool :=
  decide (b ∈ L.blocks)

/-- Write one voxel of the layer. -/
def Layer.setVox (L : Layer) (g : GIdx) (v : TsdfVoxel) : Layer :=
  { L with vox := fun x => if x = g then v else L.vox x }

/-- Owning block of a global voxel index: componentwise floor division by the
block side length (for a positive side length, integer ediv is floor). -/
def blockOf (vps : ℤ) (g : GIdx) : BIdx :=
  (g.1 / vps, g.2.1 / vps, g.2.2 / vps)

/-- The global indices of the voxels of block `b`, enumerated in the voxblox
linear-index order (x fastest), mirroring the `for (size_t index = 0; index <
voxels_per_block_; ++index)` loops of the source. -/
def blockVoxels (vps : ℤ) (b : BIdx) : List GIdx :=
  (List.range (vps.toNat * vps.toNat * vps.toNat)).map fun i =>
    (b.1 * vps + (i % vps.toNat : ℕ),
     b.2.1 * vps + ((i / vps.toNat) % vps.toNat : ℕ),
     b.2.2 * vps + (i / (vps.toNat * vps.toNat) : ℕ))

/-- The 26 nonzero offsets of the 3x3x3 cube around a cell. -/
def allOffsets : List GIdx :=
  [(-1, -1, -1), (-1, -1, 0), (-1, -1, 1),
   (-1, 0, -1), (-1, 0, 0), (-1, 0, 1),
   (-1, 1, -1), (-1, 1, 0), (-1, 1, 1),
   (0, -1, -1), (0, -1, 0), (0, -1, 1),
   (0, 0, -1), (0, 0, 1),
   (0, 1, -1), (0, 1, 0), (0, 1, 1),
   (1, -1, -1), (1, -1, 0), (1, -1, 1),
   (1, 0, -1), (1, 0, 0), (1, 0, 1),
   (1, 1, -1), (1, 1, 0), (1, 1, 1)]

/-- Modelled from the spec: the Spatial Neighborhood Resolver
(`NeighborhoodSearch`, whose source file is not among the provided sources).
Per spec section 4.1 it enumerates the 6-, 18- or 26-connected neighbor
offsets: face neighbors, face+edge neighbors, or face+edge+corner neighbors. -/
def offsets (c : ℕ) : List GIdx :=
  allOffsets.filter fun o =>
    decide (o.1.natAbs + o.2.1.natAbs + o.2.2.natAbs ≤
      (if c = 6 then 1 else if c = 18 then 2 else 3))

/-- Modelled from the spec: neighbor addresses of a cell for the configured
connectivity, resolved across block boundaries by working with absolute cell
coordinates (spec section 4.1). -/
def neighbors (c : ℕ) (g : GIdx) : List GIdx :=
  (offsets c).map fun o => (g.1 + o.1, g.2.1 + o.2.1, g.2.2 + o.2.2)

/-- The 1e-6 observedness threshold of ever_free_integrator.cpp. -/
def q6 : ℚ := 1 / 1000000

/-- EverFreeIntegrator::updateOccupancyCounter
(ever_free_integrator.cpp lines 203-213). -/
def updateOccupancyCounter (cfg : Config) (voxel : TsdfVoxel)
    (frame_counter : ℤ) : TsdfVoxel :=
  let v1 :=
    if voxel.last_occupied ≥ frame_counter - cfg.temporal_buffer then
      { voxel with occ_counter := voxel.occ_counter + 1 }
    else
      { voxel with occ_counter := 1 }
  { v1 with last_occupied := frame_counter }

/-- Clearing of the ever-free attributes (ever_free_integrator.cpp
lines 174-176 and 198-199). -/
def clearVoxel (v : TsdfVoxel) : TsdfVoxel :=
  { v with ever_free := false, dynamic := false }

/-- One iteration of the neighbor loop of EverFreeIntegrator::removeEverFree
(ever_free_integrator.cpp lines 182-200): clear the neighbor when it lies in
the own block or in an allocated block; skip a missing block. -/
def removeStep (_cfg : Config) (g : GIdx) (acc : Layer) (n : GIdx) : Layer :=
  if blockOf acc.vps n = blockOf acc.vps g ∨
      acc.hasBlock (blockOf acc.vps n) = true then
    acc.setVox n (clearVoxel (acc.vox n))
  else acc

/-- EverFreeIntegrator::removeEverFree (ever_free_integrator.cpp
lines 167-201): clear the cell, then clear every neighbor whose block is the
own block or is allocated; a missing neighbor block is skipped. -/
def removeEverFree (cfg : Config) (L : Layer) (g : GIdx) : Layer :=
  (neighbors cfg.neighbor_connectivity g).foldl (removeStep cfg g)
    (L.setVox g (clearVoxel (L.vox g)))

/-- The per-voxel bookkeeping of the first phase of
EverFreeIntegrator::updateEverFreeVoxels (ever_free_integrator.cpp
lines 63-71): occupancy-counter update and clearing of `dynamic`. -/
def phaseAVoxelUpdate (cfg : Config) (frame_counter : ℤ)
    (v : TsdfVoxel) : TsdfVoxel :=
  let v1 :=
    if v.distance < cfg.tsdf_occupancy_threshold ∨
        v.last_lidar_occupied = frame_counter then
      updateOccupancyCounter cfg v frame_counter
    else v
  if v1.last_lidar_occupied < frame_counter - cfg.temporal_buffer then
    { v1 with dynamic := false }
  else v1

/-- One iteration of the phase-A voxel loop of
EverFreeIntegrator::updateEverFreeVoxels (ever_free_integrator.cpp
lines 60-78): bookkeeping, then removeEverFree when the occupancy counter has
reached counter_to_reset. -/
def phaseAStep (cfg : Config) (frame_counter : ℤ) (L : Layer)
    (g : GIdx) : Layer :=
  let v2 := phaseAVoxelUpdate cfg frame_counter (L.vox g)
  let L2 := L.setVox g v2
  if v2.occ_counter ≥ cfg.counter_to_reset then removeEverFree cfg L2 g else L2

/-- Phase A processing of one updated block (ever_free_integrator.cpp
lines 54-79); a missing block is skipped. -/
def processBlockA (cfg : Config) (frame_counter : ℤ) (A : Layer)
    (b : BIdx) : Layer :=
  if A.hasBlock b = true then
    (blockVoxels A.vps b).foldl (phaseAStep cfg frame_counter) A
  else A

/-- The neighbor test of EverFreeIntegrator::makeEverFree
(ever_free_integrator.cpp lines 133-157): a neighbor in a missing other block,
an unobserved neighbor, or a neighbor occupied within the burn-in period. -/
def neighborOccupiedOrUnobserved (cfg : Config) (frame_counter : ℤ)
    (L : Layer) (g n : GIdx) : Bool :=
  if blockOf L.vps n ≠ blockOf L.vps g ∧
      L.hasBlock (blockOf L.vps n) = false then
    true
  else
    decide ((L.vox n).weight < q6) ||
      decide ((L.vox n).last_occupied > frame_counter - cfg.burn_in_period)

/-- One iteration of the voxel loop of EverFreeIntegrator::makeEverFree
(ever_free_integrator.cpp lines 114-163). -/
def makeEverFreeStep (cfg : Config) (frame_counter : ℤ) (L : Layer)
    (g : GIdx) : Layer :=
  let v := L.vox g
  if v.ever_free = true ∨ v.weight ≤ q6 ∨
      v.last_occupied > frame_counter - cfg.burn_in_period then
    L
  else if (neighbors cfg.neighbor_connectivity g).any
      (neighborOccupiedOrUnobserved cfg frame_counter L g) then
    L
  else
    L.setVox g { v with ever_free := true }

/-- EverFreeIntegrator::makeEverFree (ever_free_integrator.cpp
lines 105-165): early return when the block is missing, otherwise process
every voxel of the block and finally reset the kEsdf updated flag. -/
def makeEverFree (cfg : Config) (L : Layer) (b : BIdx)
    (frame_counter : ℤ) : Layer :=
  if L.hasBlock b = true then
    let L1 := (blockVoxels L.vps b).foldl (makeEverFreeStep cfg frame_counter) L
    { L1 with updated := L1.updated.filter fun x => decide (x ≠ b) }
  else L

/-- Phase B processing of one updated block of
EverFreeIntegrator::updateEverFreeVoxels (ever_free_integrator.cpp
lines 92-99). -/
def processBlockB (cfg : Config) (frame_counter : ℤ) (acc : Layer)
    (b : BIdx) : Layer :=
  makeEverFree cfg acc b frame_counter

/-- EverFreeIntegrator::updateEverFreeVoxels (ever_free_integrator.cpp
lines 46-103): snapshot the kEsdf-updated blocks, run phase A sequentially
over them, then label ever-free voxels blockwise.  The second phase is run as
a sequential fold: its parallel workers write only the `ever_free` bit of
their own block and read only fields the phase never writes, so every
interleaving computes this same result. -/
def updateEverFreeVoxels (cfg : Config) (L : Layer)
    (frame_counter : ℤ) : Layer :=
  let ub := L.updated
  let L1 := ub.foldl (processBlockA cfg frame_counter) L
  ub.foldl (processBlockB cfg frame_counter) L1

/-- The promotion condition a voxel must satisfy inside makeEverFree for its
`ever_free` bit to be set (ever_free_integrator.cpp lines 121-162), read off
the state at the start of the block scan. -/
def promo (cfg : Config) (frame_counter : ℤ) (L : Layer) (g : GIdx) : Bool :=
  !(L.vox g).ever_free &&
  !(decide ((L.vox g).weight ≤ q6)) &&
  !(decide ((L.vox g).last_occupied > frame_counter - cfg.burn_in_period)) &&
  !((neighbors cfg.neighbor_connectivity g).any
      (neighborOccupiedOrUnobserved cfg frame_counter L g))

/-- Modelled from the spec: the `RemoveEverFree` overload called by
MotionDetector::everFreeIntegrationStep (motion_detector.cpp line 276) whose
definition is not among the provided sources.  Per the spec, retraction clears
ever-free and dynamic on the cell and propagates to all spatial neighbors
regardless of their own counters, which is the behavior of the standalone
removeEverFree. -/
def embeddedRemoveEverFree (cfg : Config) (L : Layer) (g : GIdx)
    (_frame_counter : ℤ) : Layer :=
  removeEverFree cfg L g

/-- One iteration of the first voxel loop of
MotionDetector::everFreeIntegrationStep (motion_detector.cpp lines 255-280):
occupancy trigger `distance < 3 * voxel_size / 2 or curr_occupied == frame`,
additional `last_static` stamp, clearing of `moving` under the hardcoded
buffer 2, and removal triggered by `occ_counter == occ_counter_to_reset`.
The occupancy-counter update itself is delegated to the integrator
(motion_detector.cpp line 265). -/
def everFreeIntegrationVoxelStep (cfg : Config) (occ_counter_to_reset : ℤ)
    (voxel_size : ℚ) (frame_counter : ℤ) (L : Layer) (g : GIdx) : Layer :=
  let v := L.vox g
  let v1 :=
    if v.distance < 3 * voxel_size / 2 ∨ v.curr_occupied = frame_counter then
      { updateOccupancyCounter cfg v frame_counter with
          last_static := frame_counter }
    else v
  let v2 :=
    if v1.curr_occupied < frame_counter - 2 then { v1 with moving := false }
    else v1
  let L2 := L.setVox g v2
  if v2.occ_counter = occ_counter_to_reset then
    embeddedRemoveEverFree cfg L2 g frame_counter
  else L2

/-- The stages of MotionDetector::pointcloudCallback. -/
inductive Stage where
  | tfLookup
  | preprocessing
  | indexBuilder
  | clustering
  | everFreeIntegration
  | evaluation
  | visualization
  | filteredOutDerivation
  | tsdfIntegration
deriving DecidableEq, BEq, Repr

/-- The stage order of MotionDetector::pointcloudCallback after a successful
transform lookup (motion_detector.cpp lines 91-185): tf lookup (line 106),
preprocessing (line 119), voxel-to-point index building via
setUpVoxel2PointMap (line 140), clustering (line 146), ever-free integration
(line 151), optional evaluation (line 154) and visualization (line 162),
derivation of filtered_out from cluster_level_dynamic (lines 168-174), and
TSDF integration (line 181). -/
def pointcloudCallbackStages (evaluate visualize : Bool) : List Stage :=
  [Stage.tfLookup, Stage.preprocessing, Stage.indexBuilder, Stage.clustering,
    Stage.everFreeIntegration] ++
  (if evaluate then [Stage.evaluation] else []) ++
  (if visualize then [Stage.visualization] else []) ++
  [Stage.filteredOutDerivation, Stage.tsdfIntegration]

/-- The state of the MotionDetector that persists across frames: the
process-wide frame counter and the TSDF layer. -/
structure MDState where
  frame_counter : ℤ
  layer : Layer

/-- The control flow of MotionDetector::pointcloudCallback around the
transform lookup (motion_detector.cpp lines 91-111): the frame counter is
incremented first (line 93); if the transform lookup fails the callback
returns early (line 109), otherwise the rest of the callback runs.  The rest
of the callback is abstracted as a state transformer `rest`. -/
def pointcloudCallback (rest : MDState → MDState) (transform_ok : Bool)
    (s : MDState) : MDState :=
  let s1 := { s with frame_counter := s.frame_counter + 1 }
  if transform_ok then rest s1 else s1

/-- The per-point classification record of the CloudInfo structure. -/
structure PointInfo where
  EverFree_level_dynamic : Bool
  cluster_level_dynamic : Bool
  filtered_out : Bool
deriving DecidableEq, Repr

/-- MotionDetector::BlockwiseBuildVoxel2PointMap (motion_detector.cpp
lines 333-374): if the block is not allocated the refinement returns without
output (line 341); otherwise every point index of the block is appended to the
per-cell map (represented here as the list of cell/point-index pairs) and
points in ever-free cells get their EverFree_level_dynamic flag set.  A point
is identified with the global index of its voxel, since coordinate-to-index
quantization is performed by the external map. -/
def blockwiseBuildVoxel2PointMap (L : Layer) (blockindex : BIdx)
    (pointsInBlock : List ℕ) (points : List GIdx)
    (classif : List PointInfo) : List (GIdx × ℕ) × List PointInfo :=
  if L.hasBlock blockindex = false then ([], classif)
  else
    pointsInBlock.foldl
      (fun acc i =>
        match points[i]? with
        | none => acc
        | some g =>
          let cls :=
            if (L.vox g).ever_free then
              match acc.2[i]? with
              | none => acc.2
              | some p => acc.2.set i { p with EverFree_level_dynamic := true }
            else acc.2
          (acc.1 ++ [(g, i)], cls))
      ([], classif)

/-! ## Concrete instances used in closed witness theorems -/

/-- A fully observed voxel that has been unoccupied for a long time. -/
def wVoxFree : TsdfVoxel :=
  ⟨0, 1, 0, -100, -100, -100, 0, false, false, false, false⟩

/-- A voxel far from a surface whose occupancy counter is already high. -/
def wVoxOcc : TsdfVoxel :=
  ⟨100, 1, 5, -10, -10, -10, 0, true, false, false, false⟩

/-- An ever-free voxel with counter one past the reset threshold, far from any
surface and not recently occupied. -/
def wVoxDiff : TsdfVoxel :=
  ⟨100, 1, 3, -10, -10, -10, 0, true, false, false, false⟩

/-- A currently dynamic voxel that has not been sensor-occupied recently. -/
def wVoxDyn : TsdfVoxel :=
  ⟨100, 1, 0, -10, -10, -10, 0, false, true, false, false⟩

/-- A one-voxel-per-block layer whose origin block and all six face-neighbor
blocks are allocated, every voxel observed and long unoccupied. -/
def wLayerFree : Layer :=
  ⟨1, [(0, 0, 0), (1, 0, 0), (-1, 0, 0), (0, 1, 0), (0, -1, 0), (0, 0, 1),
      (0, 0, -1)], fun _ => wVoxFree, [(0, 0, 0)]⟩

/-- A layer with only the origin block allocated. -/
def wLayerMiss : Layer :=
  ⟨1, [(0, 0, 0)], fun _ => wVoxFree, [(0, 0, 0)]⟩

/-- A layer holding an occupied voxel, with one allocated neighbor block. -/
def wLayerOcc : Layer :=
  ⟨1, [(0, 0, 0), (1, 0, 0)], fun _ => wVoxOcc, [(0, 0, 0)]⟩

/-- A single-block layer holding `wVoxDiff`. -/
def wLayerDiff : Layer :=
  ⟨1, [(0, 0, 0)], fun _ => wVoxDiff, [(0, 0, 0)]⟩

/-- A single-block layer holding `wVoxDyn`, marked updated. -/
def wLayerDyn : Layer :=
  ⟨1, [(0, 0, 0)], fun _ => wVoxDyn, [(0, 0, 0)]⟩

/-- Config with a large counter-to-reset and burn-in 5. -/
def wCfgA : Config := ⟨10, 2, 5, 0, 6⟩

/-- Config with counter-to-reset 1 and all temporal windows 0. -/
def wCfgB : Config := ⟨1, 0, 0, 0, 6⟩

/-- Config with counter-to-reset 2. -/
def wCfgC : Config := ⟨2, 0, 0, 0, 6⟩

/-- Config with temporal buffer 1 and thresholds that keep every other rule
inactive. -/
def wCfgD : Config := ⟨100, 1, 100, 0, 6⟩

/-! ## Generic fold lemmas -/

theorem foldl_invariant {α β : Type} (P : β → Prop) (f : β → α → β)
    (hf : ∀ x a, P x → P (f x a)) :
    ∀ (l : List α) (b : β), P b → P (l.foldl f b) := by
  intro l
  induction l with
  | nil => exact fun b hb => hb
  | cons a t ih => exact fun b hb => ih (f b a) (hf b a hb)

theorem foldl_establish {α β : Type} (P C : β → Prop) (f : β → α → β) (a : α)
    (hP : ∀ x y, P x → P (f x y)) (hC : ∀ x y, C x → C (f x y))
    (hE : ∀ x, C x → P (f x a)) :
    ∀ (l : List α) (b : β), a ∈ l → C b → P (l.foldl f b) := by
  intro l
  induction l with
  | nil => intro b h _; exact absurd h (List.not_mem_nil a)
  | cons y t ih =>
    intro b hmem hc
    rcases List.mem_cons.mp hmem with h | h
    · subst h
      exact foldl_invariant P f hP t (f b a) (hE b hc)
    · exact ih (f b y) h (hC b y hc)

theorem foldl_fixed {α β : Type} (f : β → α → β) (b : β) :
    ∀ l : List α, (∀ x ∈ l, f b x = b) → l.foldl f b = b := by
  intro l
  induction l with
  | nil => intro _; rfl
  | cons a t ih =>
    intro h
    calc (a :: t).foldl f b = t.foldl f (f b a) := rfl
      _ = t.foldl f b := by rw [h a (List.mem_cons_self a t)]
      _ = b := ih fun x hx => h x (List.mem_cons_of_mem a hx)

/-! ## Basic layer lemmas -/

@[simp] theorem setVox_vox (L : Layer) (g x : GIdx) (v : TsdfVoxel) :
    (L.setVox g v).vox x = if x = g then v else L.vox x := rfl

@[simp] theorem setVox_blocks (L : Layer) (g : GIdx) (v : TsdfVoxel) :
    (L.setVox g v).blocks = L.blocks := rfl

@[simp] theorem setVox_vps (L : Layer) (g : GIdx) (v : TsdfVoxel) :
    (L.setVox g v).vps = L.vps := rfl

@[simp] theorem setVox_updated (L : Layer) (g : GIdx) (v : TsdfVoxel) :
    (L.setVox g v).updated = L.updated := rfl

@[simp] theorem setVox_hasBlock (L : Layer) (g : GIdx) (v : TsdfVoxel)
    (b : BIdx) : (L.setVox g v).hasBlock b = L.hasBlock b := rfl

@[simp] theorem clearVoxel_ever_free (v : TsdfVoxel) :
    (clearVoxel v).ever_free = false := rfl

@[simp] theorem clearVoxel_dynamic (v : TsdfVoxel) :
    (clearVoxel v).dynamic = false := rfl

@[simp] theorem clearVoxel_idem (v : TsdfVoxel) :
    clearVoxel (clearVoxel v) = clearVoxel v := rfl

theorem hasBlock_congr {L1 L2 : Layer} (h : L1.blocks = L2.blocks) (b : BIdx) :
    L1.hasBlock b = L2.hasBlock b := by
  unfold Layer.hasBlock
  rw [h]

/-! ## removeEverFree lemmas -/

theorem removeStep_blocks (cfg : Config) (g : GIdx) (A : Layer) (n : GIdx) :
    (removeStep cfg g A n).blocks = A.blocks := by
  unfold removeStep; split <;> rfl

theorem removeStep_vps (cfg : Config) (g : GIdx) (A : Layer) (n : GIdx) :
    (removeStep cfg g A n).vps = A.vps := by
  unfold removeStep; split <;> rfl

theorem removeStep_updated (cfg : Config) (g : GIdx) (A : Layer) (n : GIdx) :
    (removeStep cfg g A n).updated = A.updated := by
  unfold removeStep; split <;> rfl

theorem removeStep_vox (cfg : Config) (g : GIdx) (A : Layer) (n x : GIdx) :
    (removeStep cfg g A n).vox x =
      if x = n ∧ (blockOf A.vps n = blockOf A.vps g ∨
          A.hasBlock (blockOf A.vps n) = true) then
        clearVoxel (A.vox n)
      else A.vox x := by
  unfold removeStep
  by_cases hc : blockOf A.vps n = blockOf A.vps g ∨
      A.hasBlock (blockOf A.vps n) = true
  · rw [if_pos hc]
    by_cases hx : x = n
    · simp [hx, hc]
    · simp [hx]
  · rw [if_neg hc]
    simp [hc]

theorem removeFold_spec (cfg : Config) (g : GIdx) :
    ∀ (ns : List GIdx) (A : Layer),
      ((ns.foldl (removeStep cfg g) A).blocks = A.blocks ∧
       (ns.foldl (removeStep cfg g) A).vps = A.vps ∧
       (ns.foldl (removeStep cfg g) A).updated = A.updated) ∧
      ∀ x, (ns.foldl (removeStep cfg g) A).vox x =
        if x ∈ ns ∧ (blockOf A.vps x = blockOf A.vps g ∨
            A.hasBlock (blockOf A.vps x) = true) then
          clearVoxel (A.vox x)
        else A.vox x := by
  intro ns
  induction ns with
  | nil =>
    intro A
    refine ⟨⟨rfl, rfl, rfl⟩, fun x => ?_⟩
    simp
  | cons n t ih =>
    intro A
    have hfold : (n :: t).foldl (removeStep cfg g) A =
        t.foldl (removeStep cfg g) (removeStep cfg g A n) := rfl
    obtain ⟨⟨ihb, ihv, ihu⟩, ihvox⟩ := ih (removeStep cfg g A n)
    refine ⟨⟨?_, ?_, ?_⟩, ?_⟩
    · rw [hfold, ihb, removeStep_blocks]
    · rw [hfold, ihv, removeStep_vps]
    · rw [hfold, ihu, removeStep_updated]
    · intro x
      rw [hfold, ihvox x]
      have hvps : (removeStep cfg g A n).vps = A.vps := removeStep_vps cfg g A n
      have hhb : ∀ b, (removeStep cfg g A n).hasBlock b = A.hasBlock b :=
        hasBlock_congr (removeStep_blocks cfg g A n)
      rw [hvps, hhb, removeStep_vox]
      by_cases hxn : x = n
      · subst hxn
        by_cases hcx : blockOf A.vps x = blockOf A.vps g ∨
            A.hasBlock (blockOf A.vps x) = true
        · simp [hcx]
        · simp [hcx]
      · by_cases hxt : x ∈ t
        · by_cases hcx : blockOf A.vps x = blockOf A.vps g ∨
              A.hasBlock (blockOf A.vps x) = true
          · simp [hxn, hxt, hcx]
          · simp [hxn, hxt, hcx]
        · simp [hxn, hxt]

theorem removeEverFree_vox (cfg : Config) (L : Layer) (g x : GIdx) :
    (removeEverFree cfg L g).vox x =
      if x = g ∨ (x ∈ neighbors cfg.neighbor_connectivity g ∧
          (blockOf L.vps x = blockOf L.vps g ∨
            L.hasBlock (blockOf L.vps x) = true)) then
        clearVoxel (L.vox x)
      else L.vox x := by
  unfold removeEverFree
  obtain ⟨-, hvox⟩ :=
    removeFold_spec cfg g (neighbors cfg.neighbor_connectivity g)
      (L.setVox g (clearVoxel (L.vox g)))
  rw [hvox x]
  by_cases hxg : x = g
  · by_cases hmem : x ∈ neighbors cfg.neighbor_connectivity g ∧
        (blockOf L.vps x = blockOf L.vps g ∨
          L.hasBlock (blockOf L.vps x) = true)
    · simp [hxg, hmem]
    · simp [hxg, hmem]
  · simp [hxg]

theorem removeEverFree_blocks (cfg : Config) (L : Layer) (g : GIdx) :
    (removeEverFree cfg L g).blocks = L.blocks := by
  unfold removeEverFree
  obtain ⟨⟨hb, -, -⟩, -⟩ :=
    removeFold_spec cfg g (neighbors cfg.neighbor_connectivity g)
      (L.setVox g (clearVoxel (L.vox g)))
  rw [hb]; rfl

theorem removeEverFree_vps (cfg : Config) (L : Layer) (g : GIdx) :
    (removeEverFree cfg L g).vps = L.vps := by
  unfold removeEverFree
  obtain ⟨⟨-, hv, -⟩, -⟩ :=
    removeFold_spec cfg g (neighbors cfg.neighbor_connectivity g)
      (L.setVox g (clearVoxel (L.vox g)))
  rw [hv]; rfl

theorem removeEverFree_updated (cfg : Config) (L : Layer) (g : GIdx) :
    (removeEverFree cfg L g).updated = L.updated := by
  unfold removeEverFree
  obtain ⟨⟨-, -, hu⟩, -⟩ :=
    removeFold_spec cfg g (neighbors cfg.neighbor_connectivity g)
      (L.setVox g (clearVoxel (L.vox g)))
  rw [hu]; rfl

theorem removeEverFree_scalars (cfg : Config) (L : Layer) (g x : GIdx) :
    ((removeEverFree cfg L g).vox x).occ_counter = (L.vox x).occ_counter ∧
    ((removeEverFree cfg L g).vox x).last_occupied = (L.vox x).last_occupied ∧
    ((removeEverFree cfg L g).vox x).last_lidar_occupied =
      (L.vox x).last_lidar_occupied ∧
    ((removeEverFree cfg L g).vox x).weight = (L.vox x).weight := by
  rw [removeEverFree_vox]
  split
  · exact ⟨rfl, rfl, rfl, rfl⟩
  · exact ⟨rfl, rfl, rfl, rfl⟩

theorem removeEverFree_dynamic_mono (cfg : Config) (L : Layer) (g x : GIdx)
    (h : (L.vox x).dynamic = false) :
    ((removeEverFree cfg L g).vox x).dynamic = false := by
  rw [removeEverFree_vox]
  split
  · rfl
  · exact h

/-! ## Phase A voxel lemmas -/

theorem updateOccupancyCounter_preserves (cfg : Config) (v : TsdfVoxel)
    (f : ℤ) :
    (updateOccupancyCounter cfg v f).last_lidar_occupied =
        v.last_lidar_occupied ∧
      (updateOccupancyCounter cfg v f).dynamic = v.dynamic ∧
      (updateOccupancyCounter cfg v f).ever_free = v.ever_free ∧
      (updateOccupancyCounter cfg v f).weight = v.weight := by
  unfold updateOccupancyCounter
  by_cases h : v.last_occupied ≥ f - cfg.temporal_buffer
  · rw [if_pos h]; exact ⟨rfl, rfl, rfl, rfl⟩
  · rw [if_neg h]; exact ⟨rfl, rfl, rfl, rfl⟩

theorem phaseAVoxelUpdate_preserves (cfg : Config) (f : ℤ) (v : TsdfVoxel) :
    (phaseAVoxelUpdate cfg f v).last_lidar_occupied =
        v.last_lidar_occupied ∧
      (phaseAVoxelUpdate cfg f v).ever_free = v.ever_free ∧
      (phaseAVoxelUpdate cfg f v).weight = v.weight := by
  simp only [phaseAVoxelUpdate]
  obtain ⟨h1, h2, h3, h4⟩ := updateOccupancyCounter_preserves cfg v f
  by_cases hc : v.distance < cfg.tsdf_occupancy_threshold ∨
      v.last_lidar_occupied = f
  · rw [if_pos hc]
    by_cases hd : (updateOccupancyCounter cfg v f).last_lidar_occupied <
        f - cfg.temporal_buffer
    · rw [if_pos hd]; exact ⟨h1, h3, h4⟩
    · rw [if_neg hd]; exact ⟨h1, h3, h4⟩
  · rw [if_neg hc]
    by_cases hd : v.last_lidar_occupied < f - cfg.temporal_buffer
    · rw [if_pos hd]; exact ⟨rfl, rfl, rfl⟩
    · rw [if_neg hd]; exact ⟨rfl, rfl, rfl⟩

theorem phaseAVoxelUpdate_dyn_mono (cfg : Config) (f : ℤ) (v : TsdfVoxel)
    (h : v.dynamic = false) :
    (phaseAVoxelUpdate cfg f v).dynamic = false := by
  simp only [phaseAVoxelUpdate]
  by_cases hc : v.distance < cfg.tsdf_occupancy_threshold ∨
      v.last_lidar_occupied = f
  · rw [if_pos hc]
    by_cases hd : (updateOccupancyCounter cfg v f).last_lidar_occupied <
        f - cfg.temporal_buffer
    · rw [if_pos hd]
    · rw [if_neg hd, (updateOccupancyCounter_preserves cfg v f).2.1]; exact h
  · rw [if_neg hc]
    by_cases hd : v.last_lidar_occupied < f - cfg.temporal_buffer
    · rw [if_pos hd]
    · rw [if_neg hd]; exact h

theorem phaseAVoxelUpdate_clears (cfg : Config) (f : ℤ) (v : TsdfVoxel)
    (h : v.last_lidar_occupied < f - cfg.temporal_buffer) :
    (phaseAVoxelUpdate cfg f v).dynamic = false := by
  simp only [phaseAVoxelUpdate]
  by_cases hc : v.distance < cfg.tsdf_occupancy_threshold ∨
      v.last_lidar_occupied = f
  · rw [if_pos hc,
      if_pos (by rw [(updateOccupancyCounter_preserves cfg v f).1]; exact h)]
  · rw [if_neg hc, if_pos h]

theorem phaseAStep_struct (cfg : Config) (f : ℤ) (L : Layer) (g : GIdx) :
    (phaseAStep cfg f L g).blocks = L.blocks ∧
      (phaseAStep cfg f L g).vps = L.vps ∧
      (phaseAStep cfg f L g).updated = L.updated := by
  simp only [phaseAStep]
  split
  · exact ⟨removeEverFree_blocks cfg _ g, removeEverFree_vps cfg _ g,
      removeEverFree_updated cfg _ g⟩
  · exact ⟨rfl, rfl, rfl⟩

theorem phaseAStep_lidar (cfg : Config) (f : ℤ) (L : Layer) (g x : GIdx) :
    ((phaseAStep cfg f L g).vox x).last_lidar_occupied =
      (L.vox x).last_lidar_occupied := by
  have hset :
      (((L.setVox g (phaseAVoxelUpdate cfg f (L.vox g))).vox x).last_lidar_occupied) =
        (L.vox x).last_lidar_occupied := by
    rw [setVox_vox]
    by_cases hx : x = g
    · rw [if_pos hx, hx, (phaseAVoxelUpdate_preserves cfg f (L.vox g)).1]
    · rw [if_neg hx]
  simp only [phaseAStep]
  split
  · rw [(removeEverFree_scalars cfg _ g x).2.2.1, hset]
  · exact hset

theorem phaseAStep_dyn_mono (cfg : Config) (f : ℤ) (L : Layer) (g x : GIdx)
    (h : (L.vox x).dynamic = false) :
    ((phaseAStep cfg f L g).vox x).dynamic = false := by
  have hset : ((L.setVox g (phaseAVoxelUpdate cfg f (L.vox g))).vox x).dynamic
      = false := by
    rw [setVox_vox]
    by_cases hx : x = g
    · rw [if_pos hx]
      exact phaseAVoxelUpdate_dyn_mono cfg f (L.vox g) (hx ▸ h)
    · rw [if_neg hx]; exact h
  simp only [phaseAStep]
  split
  · exact removeEverFree_dynamic_mono cfg _ g x hset
  · exact hset

theorem phaseAStep_clears (cfg : Config) (f : ℤ) (L : Layer) (g : GIdx)
    (h : (L.vox g).last_lidar_occupied < f - cfg.temporal_buffer) :
    ((phaseAStep cfg f L g).vox g).dynamic = false := by
  have hset : ((L.setVox g (phaseAVoxelUpdate cfg f (L.vox g))).vox g).dynamic
      = false := by
    rw [setVox_vox, if_pos rfl]
    exact phaseAVoxelUpdate_clears cfg f (L.vox g) h
  simp only [phaseAStep]
  split
  · exact removeEverFree_dynamic_mono cfg _ g g hset
  · exact hset

/-! ## Structural fold lemmas -/

theorem foldl_struct {α : Type} (f : Layer → α → Layer)
    (hf : ∀ X a, (f X a).blocks = X.blocks ∧ (f X a).vps = X.vps ∧
      (f X a).updated = X.updated) :
    ∀ (l : List α) (A : Layer),
      (l.foldl f A).blocks = A.blocks ∧ (l.foldl f A).vps = A.vps ∧
        (l.foldl f A).updated = A.updated := by
  intro l A
  exact foldl_invariant
    (fun X => X.blocks = A.blocks ∧ X.vps = A.vps ∧ X.updated = A.updated) f
    (fun X a hX =>
      ⟨((hf X a).1).trans hX.1, ((hf X a).2.1).trans hX.2.1,
        ((hf X a).2.2).trans hX.2.2⟩)
    l A ⟨rfl, rfl, rfl⟩

theorem processBlockA_struct (cfg : Config) (f : ℤ) (A : Layer) (b : BIdx) :
    (processBlockA cfg f A b).blocks = A.blocks ∧
      (processBlockA cfg f A b).vps = A.vps ∧
      (processBlockA cfg f A b).updated = A.updated := by
  unfold processBlockA
  split
  · exact foldl_struct (phaseAStep cfg f) (fun X a => phaseAStep_struct cfg f X a)
      (blockVoxels A.vps b) A
  · exact ⟨rfl, rfl, rfl⟩

/-! ## makeEverFree lemmas -/

theorem promo_ef_false (cfg : Config) (f : ℤ) (L : Layer) (g : GIdx)
    (h : (L.vox g).ever_free = true) : promo cfg f L g = false := by
  unfold promo
  rw [h]
  rfl

theorem promo_eq_true (cfg : Config) (f : ℤ) (L : Layer) (g : GIdx) :
    promo cfg f L g = true ↔
      ((L.vox g).ever_free = false ∧ ¬((L.vox g).weight ≤ q6) ∧
        ¬((L.vox g).last_occupied > f - cfg.burn_in_period) ∧
        (neighbors cfg.neighbor_connectivity g).any
          (neighborOccupiedOrUnobserved cfg f L g) = false) := by
  unfold promo
  constructor
  · intro h
    simp only [Bool.and_eq_true, Bool.not_eq_true', decide_eq_false_iff_not]
      at h
    exact ⟨h.1.1.1, h.1.1.2, h.1.2, h.2⟩
  · intro h
    obtain ⟨h1, h2, h3, h4⟩ := h
    simp [h1, h2, h3, h4]

theorem mefStep_eq_set (cfg : Config) (f : ℤ) (A : Layer) (a : GIdx)
    (hp : promo cfg f A a = true) :
    makeEverFreeStep cfg f A a =
      A.setVox a { A.vox a with ever_free := true } := by
  obtain ⟨hef, hw, hlo, hany⟩ := (promo_eq_true cfg f A a).mp hp
  simp only [makeEverFreeStep]
  rw [if_neg (by
    intro hcon
    rcases hcon with h | h | h
    · rw [hef] at h
      exact Bool.false_ne_true h
    · exact hw h
    · exact hlo h)]
  rw [if_neg (by rw [hany]; exact Bool.false_ne_true)]

theorem mefStep_eq_self (cfg : Config) (f : ℤ) (A : Layer) (a : GIdx)
    (hp : promo cfg f A a = false) :
    makeEverFreeStep cfg f A a = A := by
  by_cases hc : (A.vox a).ever_free = true ∨ (A.vox a).weight ≤ q6 ∨
      (A.vox a).last_occupied > f - cfg.burn_in_period
  · simp only [makeEverFreeStep]
    rw [if_pos hc]
  · by_cases hany : (neighbors cfg.neighbor_connectivity a).any
        (neighborOccupiedOrUnobserved cfg f A a) = true
    · simp only [makeEverFreeStep]
      rw [if_neg hc, if_pos hany]
    · exfalso
      push_neg at hc
      have hef : (A.vox a).ever_free = false := by
        cases h : (A.vox a).ever_free
        · rfl
        · exact absurd h hc.1
      have hany2 : (neighbors cfg.neighbor_connectivity a).any
          (neighborOccupiedOrUnobserved cfg f A a) = false := by
        cases h : (neighbors cfg.neighbor_connectivity a).any
            (neighborOccupiedOrUnobserved cfg f A a)
        · rfl
        · exact absurd h hany
      have htrue := (promo_eq_true cfg f A a).mpr
        ⟨hef, not_le.mpr hc.2.1, not_lt.mpr hc.2.2, hany2⟩
      rw [hp] at htrue
      exact Bool.false_ne_true htrue

theorem list_any_congr {α : Type} {p q : α → Bool} :
    ∀ l : List α, (∀ x ∈ l, p x = q x) → l.any p = l.any q := by
  intro l
  induction l with
  | nil => intro _; rfl
  | cons a t ih =>
    intro h
    simp only [List.any_cons]
    rw [h a (List.mem_cons_self a t),
      ih fun x hx => h x (List.mem_cons_of_mem a hx)]

theorem nbad_congr (cfg : Config) (f : ℤ) (A B : Layer) (g n : GIdx)
    (hb : B.blocks = A.blocks) (hv : B.vps = A.vps)
    (hw : (B.vox n).weight = (A.vox n).weight)
    (ho : (B.vox n).last_occupied = (A.vox n).last_occupied) :
    neighborOccupiedOrUnobserved cfg f B g n =
      neighborOccupiedOrUnobserved cfg f A g n := by
  unfold neighborOccupiedOrUnobserved
  rw [hv, hasBlock_congr hb, hw, ho]

theorem promo_congr (cfg : Config) (f : ℤ) (A B : Layer) (x : GIdx)
    (hb : B.blocks = A.blocks) (hv : B.vps = A.vps)
    (hx : B.vox x = A.vox x)
    (hall : ∀ n, (B.vox n).weight = (A.vox n).weight ∧
      (B.vox n).last_occupied = (A.vox n).last_occupied) :
    promo cfg f B x = promo cfg f A x := by
  unfold promo
  rw [hx, list_any_congr (neighbors cfg.neighbor_connectivity x)
    (fun n _ => nbad_congr cfg f A B x n hb hv (hall n).1 (hall n).2)]

theorem mefFold_spec (cfg : Config) (f : ℤ) :
    ∀ (xs : List GIdx) (A : Layer),
      ((xs.foldl (makeEverFreeStep cfg f) A).blocks = A.blocks ∧
       (xs.foldl (makeEverFreeStep cfg f) A).vps = A.vps ∧
       (xs.foldl (makeEverFreeStep cfg f) A).updated = A.updated) ∧
      ∀ x, (xs.foldl (makeEverFreeStep cfg f) A).vox x =
        if x ∈ xs ∧ promo cfg f A x = true then
          { A.vox x with ever_free := true }
        else A.vox x := by
  intro xs
  induction xs with
  | nil =>
    intro A
    refine ⟨⟨rfl, rfl, rfl⟩, fun x => ?_⟩
    simp
  | cons a t ih =>
    intro A
    by_cases hp : promo cfg f A a = true
    · have hA1 : (a :: t).foldl (makeEverFreeStep cfg f) A =
          t.foldl (makeEverFreeStep cfg f)
            (A.setVox a { A.vox a with ever_free := true }) := by
        rw [List.foldl_cons, mefStep_eq_set cfg f A a hp]
      obtain ⟨⟨b1, b2, b3⟩, bvox⟩ :=
        ih (A.setVox a { A.vox a with ever_free := true })
      have hall : ∀ n,
          ((A.setVox a { A.vox a with ever_free := true }).vox n).weight =
            (A.vox n).weight ∧
          (((A.setVox a { A.vox a with ever_free := true }).vox n).last_occupied) =
            (A.vox n).last_occupied := by
        intro n
        rw [setVox_vox]
        by_cases hn : n = a
        · rw [if_pos hn, hn]; exact ⟨rfl, rfl⟩
        · rw [if_neg hn]; exact ⟨rfl, rfl⟩
      refine ⟨⟨by rw [hA1, b1]; rfl, by rw [hA1, b2]; rfl,
        by rw [hA1, b3]; rfl⟩, fun x => ?_⟩
      rw [hA1, bvox x]
      by_cases hx : x = a
      · have hpB : promo cfg f
            (A.setVox a { A.vox a with ever_free := true }) x = false := by
          apply promo_ef_false
          rw [setVox_vox, if_pos hx]
        have hvoxx : (A.setVox a { A.vox a with ever_free := true }).vox x =
            { A.vox a with ever_free := true } := by
          rw [setVox_vox, if_pos hx]
        rw [hpB]
        simp only [Bool.false_eq_true, and_false, if_false, hvoxx]
        rw [if_pos ⟨by rw [hx]; exact List.mem_cons_self a t, by rw [hx]; exact hp⟩,
          hx]
      · have hvoxx : (A.setVox a { A.vox a with ever_free := true }).vox x =
            A.vox x := by
          rw [setVox_vox, if_neg hx]
        have hpB : promo cfg f
            (A.setVox a { A.vox a with ever_free := true }) x =
              promo cfg f A x :=
          promo_congr cfg f A _ x rfl rfl hvoxx hall
        rw [hpB, hvoxx]
        by_cases hmem : x ∈ t ∧ promo cfg f A x = true
        · rw [if_pos hmem,
            if_pos ⟨List.mem_cons_of_mem a hmem.1, hmem.2⟩]
        · rw [if_neg hmem, if_neg ?_]
          intro hcon
          rcases List.mem_cons.mp hcon.1 with h | h
          · exact hx h
          · exact hmem ⟨h, hcon.2⟩
    · have hp0 : promo cfg f A a = false := by
        revert hp; cases promo cfg f A a <;> simp
      have hA1 : (a :: t).foldl (makeEverFreeStep cfg f) A =
          t.foldl (makeEverFreeStep cfg f) A := by
        rw [List.foldl_cons, mefStep_eq_self cfg f A a hp0]
      obtain ⟨⟨b1, b2, b3⟩, bvox⟩ := ih A
      refine ⟨⟨by rw [hA1, b1], by rw [hA1, b2], by rw [hA1, b3]⟩, fun x => ?_⟩
      rw [hA1, bvox x]
      by_cases hmem : x ∈ t ∧ promo cfg f A x = true
      · rw [if_pos hmem, if_pos ⟨List.mem_cons_of_mem a hmem.1, hmem.2⟩]
      · rw [if_neg hmem, if_neg ?_]
        intro hcon
        rcases List.mem_cons.mp hcon.1 with h | h
        · rw [h] at hcon
          exact absurd hcon.2 (by rw [hp0]; simp)
        · exact hmem ⟨h, hcon.2⟩

theorem makeEverFree_vox (cfg : Config) (L : Layer) (b : BIdx) (f : ℤ)
    (hb : L.hasBlock b = true) :
    ∀ x, (makeEverFree cfg L b f).vox x =
      if x ∈ blockVoxels L.vps b ∧ promo cfg f L x = true then
        { L.vox x with ever_free := true }
      else L.vox x := by
  intro x
  unfold makeEverFree
  rw [if_pos hb]
  exact (mefFold_spec cfg f (blockVoxels L.vps b) L).2 x

theorem makeEverFree_blocks (cfg : Config) (L : Layer) (b : BIdx) (f : ℤ) :
    (makeEverFree cfg L b f).blocks = L.blocks := by
  unfold makeEverFree
  split
  · exact (mefFold_spec cfg f (blockVoxels L.vps b) L).1.1
  · rfl

theorem makeEverFree_vps (cfg : Config) (L : Layer) (b : BIdx) (f : ℤ) :
    (makeEverFree cfg L b f).vps = L.vps := by
  unfold makeEverFree
  split
  · exact (mefFold_spec cfg f (blockVoxels L.vps b) L).1.2.1
  · rfl

theorem makeEverFree_updated (cfg : Config) (L : Layer) (b : BIdx) (f : ℤ) :
    (makeEverFree cfg L b f).updated =
      if L.hasBlock b = true then
        L.updated.filter fun x => decide (x ≠ b)
      else L.updated := by
  unfold makeEverFree
  by_cases hb : L.hasBlock b = true
  · rw [if_pos hb, if_pos hb]
    show ((blockVoxels L.vps b).foldl (makeEverFreeStep cfg f) L).updated.filter
        (fun x => decide (x ≠ b)) = L.updated.filter fun x => decide (x ≠ b)
    rw [(mefFold_spec cfg f (blockVoxels L.vps b) L).1.2.2]
  · rw [if_neg hb, if_neg hb]

theorem makeEverFree_dynamic (cfg : Config) (L : Layer) (b : BIdx) (f : ℤ)
    (x : GIdx) :
    ((makeEverFree cfg L b f).vox x).dynamic = (L.vox x).dynamic := by
  by_cases hb : L.hasBlock b = true
  · rw [makeEverFree_vox cfg L b f hb x]
    split <;> rfl
  · unfold makeEverFree
    rw [if_neg hb]

/-! ## C3 and C10: the occupancy counter update -/

/-- C3: for every voxel and every occupancy update at a frame, if
`frame - last_occupied > temporal_buffer` at the moment of the update the
occupancy counter resets to exactly 1, otherwise it increments by exactly 1
(ever_free_integrator.cpp lines 203-213). -/
theorem updateOccupancyCounter_reset_law (cfg : Config) (voxel : TsdfVoxel)
    (frame_counter : ℤ) :
    (updateOccupancyCounter cfg voxel frame_counter).occ_counter =
      if frame_counter - voxel.last_occupied > cfg.temporal_buffer then 1
      else voxel.occ_counter + 1 := by
  unfold updateOccupancyCounter
  by_cases h : voxel.last_occupied ≥ frame_counter - cfg.temporal_buffer
  · rw [if_pos h, if_neg (by omega)]
  · rw [if_neg h, if_pos (by omega)]

/-- C10: updateOccupancyCounter always stamps `last_occupied` with the current
frame counter, in both the increment branch and the reset branch; hence after
an update of a voxel with a nonnegative counter the counter is at least 1
(ever_free_integrator.cpp lines 203-213). -/
theorem updateOccupancyCounter_stamps_frame (cfg : Config) (voxel : TsdfVoxel)
    (frame_counter : ℤ) (h : 0 ≤ voxel.occ_counter) :
    (updateOccupancyCounter cfg voxel frame_counter).last_occupied =
        frame_counter ∧
      1 ≤ (updateOccupancyCounter cfg voxel frame_counter).occ_counter := by
  unfold updateOccupancyCounter
  constructor
  · split <;> rfl
  · split
    · show 1 ≤ voxel.occ_counter + 1
      omega
    · show (1 : ℤ) ≤ 1
      omega

/-- Witness for C10 at a concrete voxel and frame. -/
theorem updateOccupancyCounter_stamps_frame_witness :
    (0 : ℤ) ≤
        (⟨0, 1, 0, -5, 0, 0, 0, false, false, false, false⟩ :
          TsdfVoxel).occ_counter ∧
      ((updateOccupancyCounter ⟨3, 2, 5, 0, 6⟩
            ⟨0, 1, 0, -5, 0, 0, 0, false, false, false, false⟩ 7).last_occupied
          = 7 ∧
        1 ≤ (updateOccupancyCounter ⟨3, 2, 5, 0, 6⟩
            ⟨0, 1, 0, -5, 0, 0, 0, false, false, false, false⟩ 7).occ_counter) :=
  ⟨by decide, updateOccupancyCounter_stamps_frame _ _ _ (by decide)⟩

/-! ## Block geometry -/

theorem blockOf_of_mem_blockVoxels {vps : ℤ} {b : BIdx} {g : GIdx}
    (hv : 0 < vps) (hg : g ∈ blockVoxels vps b) : blockOf vps g = b := by
  have hn0 : 0 < vps.toNat := by omega
  have hcast : ((vps.toNat : ℤ)) = vps := Int.toNat_of_nonneg hv.le
  unfold blockVoxels at hg
  obtain ⟨i, hi, hmap⟩ := List.mem_map.mp hg
  have hi3 : i < vps.toNat * vps.toNat * vps.toNat := List.mem_range.mp hi
  obtain ⟨hx, hy, hz⟩ : g.1 = b.1 * vps + ((i % vps.toNat : ℕ) : ℤ) ∧
      g.2.1 = b.2.1 * vps + (((i / vps.toNat) % vps.toNat : ℕ) : ℤ) ∧
      g.2.2 = b.2.2 * vps + ((i / (vps.toNat * vps.toNat) : ℕ) : ℤ) := by
    rw [← hmap]
    exact ⟨rfl, rfl, rfl⟩
  have key : ∀ (a : ℤ) (r : ℕ), (r : ℤ) < vps →
      (a * vps + (r : ℤ)) / vps = a := by
    intro a r hr
    rw [add_comm, Int.add_mul_ediv_right (r : ℤ) a (ne_of_gt hv),
      Int.ediv_eq_zero_of_lt (Int.ofNat_nonneg r) hr, zero_add]
  have h1 : ((i % vps.toNat : ℕ) : ℤ) < vps := by
    rw [← hcast]
    exact_mod_cast Nat.mod_lt i hn0
  have h2 : (((i / vps.toNat) % vps.toNat : ℕ) : ℤ) < vps := by
    rw [← hcast]
    exact_mod_cast Nat.mod_lt (i / vps.toNat) hn0
  have h3 : ((i / (vps.toNat * vps.toNat) : ℕ) : ℤ) < vps := by
    rw [← hcast]
    have hlt : i / (vps.toNat * vps.toNat) < vps.toNat := by
      rw [Nat.div_lt_iff_lt_mul (Nat.mul_pos hn0 hn0)]
      calc i < vps.toNat * vps.toNat * vps.toNat := hi3
        _ = vps.toNat * (vps.toNat * vps.toNat) := by ring
    exact_mod_cast hlt
  unfold blockOf
  rw [hx, hy, hz, key _ _ h1, key _ _ h2, key _ _ h3]

/-! ## C1: promotion requires full neighborhood clearance -/

theorem nbad_eq_false_iff (cfg : Config) (f : ℤ) (L : Layer) (b : BIdx)
    (g n : GIdx) (hb : L.hasBlock b = true) (hbg : blockOf L.vps g = b) :
    neighborOccupiedOrUnobserved cfg f L g n = false ↔
      (L.hasBlock (blockOf L.vps n) = true ∧ ¬((L.vox n).weight < q6) ∧
        (L.vox n).last_occupied ≤ f - cfg.burn_in_period) := by
  unfold neighborOccupiedOrUnobserved
  by_cases hcond : blockOf L.vps n ≠ blockOf L.vps g ∧
      L.hasBlock (blockOf L.vps n) = false
  · rw [if_pos hcond]
    constructor
    · intro h
      exact absurd h (by simp)
    · intro h
      rw [hcond.2] at h
      exact absurd h.1 (by simp)
  · rw [if_neg hcond]
    have hhas : L.hasBlock (blockOf L.vps n) = true := by
      by_cases heq : blockOf L.vps n = blockOf L.vps g
      · rw [heq, hbg]
        exact hb
      · cases h : L.hasBlock (blockOf L.vps n)
        · exact absurd ⟨heq, h⟩ hcond
        · rfl
    constructor
    · intro h
      rw [Bool.or_eq_false_iff] at h
      exact ⟨hhas, of_decide_eq_false h.1,
        not_lt.mp (of_decide_eq_false h.2)⟩
    · intro h
      rw [Bool.or_eq_false_iff]
      exact ⟨decide_eq_false h.2.1, decide_eq_false (not_lt.mpr h.2.2)⟩

theorem promo_iff_claim (cfg : Config) (f : ℤ) (L : Layer) (b : BIdx)
    (g : GIdx) (hb : L.hasBlock b = true) (hbg : blockOf L.vps g = b) :
    promo cfg f L g = true ↔
      (q6 < (L.vox g).weight ∧
        (L.vox g).last_occupied ≤ f - cfg.burn_in_period ∧
        (L.vox g).ever_free = false ∧
        ∀ n ∈ neighbors cfg.neighbor_connectivity g,
          L.hasBlock (blockOf L.vps n) = true ∧
          ¬((L.vox n).weight < q6) ∧
          (L.vox n).last_occupied ≤ f - cfg.burn_in_period) := by
  rw [promo_eq_true]
  constructor
  · rintro ⟨h1, h2, h3, h4⟩
    refine ⟨not_le.mp h2, not_lt.mp h3, h1, fun n hn => ?_⟩
    have hbad : neighborOccupiedOrUnobserved cfg f L g n = false := by
      cases hval : neighborOccupiedOrUnobserved cfg f L g n
      · rfl
      · have hay : (neighbors cfg.neighbor_connectivity g).any
            (neighborOccupiedOrUnobserved cfg f L g) = true :=
          List.any_eq_true.mpr ⟨n, hn, hval⟩
        rw [h4] at hay
        exact absurd hay (by simp)
    exact (nbad_eq_false_iff cfg f L b g n hb hbg).mp hbad
  · rintro ⟨hw, hlo, hef, hnb⟩
    refine ⟨hef, not_le.mpr hw, not_lt.mpr hlo, ?_⟩
    cases hval : (neighbors cfg.neighbor_connectivity g).any
        (neighborOccupiedOrUnobserved cfg f L g)
    · rfl
    · obtain ⟨n, hn, hbad⟩ := List.any_eq_true.mp hval
      have hfalse := (nbad_eq_false_iff cfg f L b g n hb hbg).mpr (hnb n hn)
      rw [hfalse] at hbad
      exact absurd hbad (by simp)

/-- C1: a voxel considered by makeEverFree becomes ever-free in that frame iff
it is observed (weight above the 1e-6 threshold), has been unoccupied for at
least burn_in_period frames, is not already ever-free, and every
configured-connectivity neighbor lies in an allocated block, is observed
(weight not below the threshold) and has also been unoccupied for at least
burn_in_period frames; a single missing, occupied, or unobserved neighbor
blocks promotion (ever_free_integrator.cpp lines 105-165). -/
theorem makeEverFree_promotion_iff (cfg : Config) (L : Layer) (b : BIdx)
    (f : ℤ) (g : GIdx) (hv : 0 < L.vps) (hb : L.hasBlock b = true)
    (hg : g ∈ blockVoxels L.vps b) :
    (((makeEverFree cfg L b f).vox g).ever_free = true ∧
        (L.vox g).ever_free = false) ↔
      (q6 < (L.vox g).weight ∧
        (L.vox g).last_occupied ≤ f - cfg.burn_in_period ∧
        (L.vox g).ever_free = false ∧
        ∀ n ∈ neighbors cfg.neighbor_connectivity g,
          L.hasBlock (blockOf L.vps n) = true ∧
          ¬((L.vox n).weight < q6) ∧
          (L.vox n).last_occupied ≤ f - cfg.burn_in_period) := by
  have hbg : blockOf L.vps g = b := blockOf_of_mem_blockVoxels hv hg
  rw [← promo_iff_claim cfg f L b g hb hbg, makeEverFree_vox cfg L b f hb g]
  constructor
  · rintro ⟨hpost, hpre⟩
    by_cases hp : promo cfg f L g = true
    · exact hp
    · exfalso
      rw [if_neg (fun hcon => hp hcon.2)] at hpost
      rw [hpost] at hpre
      exact absurd hpre (by simp)
  · intro hp
    rw [if_pos ⟨hg, hp⟩]
    exact ⟨rfl, ((promo_eq_true cfg f L g).mp hp).1⟩

/-- Witness for C1: in a one-voxel-per-block layer whose origin voxel and all
six face neighbors are observed and long unoccupied, the origin voxel is
promoted and the promotion condition holds. -/
theorem makeEverFree_promotion_iff_witness :
    (0 < wLayerFree.vps ∧ wLayerFree.hasBlock (0, 0, 0) = true ∧
      ((0, 0, 0) : GIdx) ∈ blockVoxels wLayerFree.vps (0, 0, 0)) ∧
    ((((makeEverFree wCfgA wLayerFree (0, 0, 0) 0).vox (0, 0, 0)).ever_free =
          true ∧
        (wLayerFree.vox (0, 0, 0)).ever_free = false) ↔
      (q6 < (wLayerFree.vox (0, 0, 0)).weight ∧
        (wLayerFree.vox (0, 0, 0)).last_occupied ≤
          0 - wCfgA.burn_in_period ∧
        (wLayerFree.vox (0, 0, 0)).ever_free = false ∧
        ∀ n ∈ neighbors wCfgA.neighbor_connectivity ((0, 0, 0) : GIdx),
          wLayerFree.hasBlock (blockOf wLayerFree.vps n) = true ∧
          ¬((wLayerFree.vox n).weight < q6) ∧
          (wLayerFree.vox n).last_occupied ≤ 0 - wCfgA.burn_in_period)) :=
  ⟨⟨by decide, by decide, by decide⟩,
    makeEverFree_promotion_iff wCfgA wLayerFree (0, 0, 0) 0 (0, 0, 0)
      (by decide) (by decide) (by decide)⟩

/-! ## C2: retraction propagation -/

/-- C2: whenever a cell's occupancy counter has reached counter_to_reset
during the per-frame phase-A update, removeEverFree is invoked on it, and
immediately afterwards that cell and every configured-connectivity neighbor
whose block is allocated have ever_free = false and dynamic = false,
regardless of the neighbors' own counters (ever_free_integrator.cpp
lines 73-78 and 167-201). -/
theorem phaseAStep_retraction (cfg : Config) (f : ℤ) (L : Layer) (g : GIdx)
    (h : (phaseAVoxelUpdate cfg f (L.vox g)).occ_counter ≥
      cfg.counter_to_reset) :
    phaseAStep cfg f L g =
        removeEverFree cfg (L.setVox g (phaseAVoxelUpdate cfg f (L.vox g))) g ∧
      ((phaseAStep cfg f L g).vox g).ever_free = false ∧
      ((phaseAStep cfg f L g).vox g).dynamic = false ∧
      ∀ n ∈ neighbors cfg.neighbor_connectivity g,
        L.hasBlock (blockOf L.vps n) = true →
          ((phaseAStep cfg f L g).vox n).ever_free = false ∧
          ((phaseAStep cfg f L g).vox n).dynamic = false := by
  have heq : phaseAStep cfg f L g =
      removeEverFree cfg (L.setVox g (phaseAVoxelUpdate cfg f (L.vox g))) g := by
    simp only [phaseAStep]
    rw [if_pos h]
  refine ⟨heq, ?_, ?_, ?_⟩
  · rw [heq, removeEverFree_vox, if_pos (Or.inl rfl)]
    rfl
  · rw [heq, removeEverFree_vox, if_pos (Or.inl rfl)]
    rfl
  · intro n hn hhas
    rw [heq, removeEverFree_vox, if_pos (Or.inr ⟨hn, Or.inr hhas⟩)]
    exact ⟨rfl, rfl⟩

/-- Witness for C2: a voxel whose counter 5 already exceeds counter-to-reset 1
is retracted together with its allocated neighbor. -/
theorem phaseAStep_retraction_witness :
    ((phaseAVoxelUpdate wCfgB 0 (wLayerOcc.vox (0, 0, 0))).occ_counter ≥
      wCfgB.counter_to_reset) ∧
    (phaseAStep wCfgB 0 wLayerOcc (0, 0, 0) =
        removeEverFree wCfgB
          (wLayerOcc.setVox (0, 0, 0)
            (phaseAVoxelUpdate wCfgB 0 (wLayerOcc.vox (0, 0, 0)))) (0, 0, 0) ∧
      ((phaseAStep wCfgB 0 wLayerOcc (0, 0, 0)).vox (0, 0, 0)).ever_free =
        false ∧
      ((phaseAStep wCfgB 0 wLayerOcc (0, 0, 0)).vox (0, 0, 0)).dynamic =
        false ∧
      ∀ n ∈ neighbors wCfgB.neighbor_connectivity ((0, 0, 0) : GIdx),
        wLayerOcc.hasBlock (blockOf wLayerOcc.vps n) = true →
          ((phaseAStep wCfgB 0 wLayerOcc (0, 0, 0)).vox n).ever_free = false ∧
          ((phaseAStep wCfgB 0 wLayerOcc (0, 0, 0)).vox n).dynamic = false) :=
  ⟨by decide, phaseAStep_retraction wCfgB 0 wLayerOcc (0, 0, 0) (by decide)⟩

/-! ## C9: dynamic is cleared for stale cells -/

theorem processBlockA_dyn_mono (cfg : Config) (f : ℤ) (A : Layer) (b : BIdx)
    (x : GIdx) (h : (A.vox x).dynamic = false) :
    ((processBlockA cfg f A b).vox x).dynamic = false := by
  unfold processBlockA
  split
  · exact foldl_invariant (fun X => (X.vox x).dynamic = false)
      (phaseAStep cfg f) (fun X a hX => phaseAStep_dyn_mono cfg f X a x hX)
      (blockVoxels A.vps b) A h
  · exact h

theorem processBlockA_lidar (cfg : Config) (f : ℤ) (A : Layer) (b : BIdx)
    (x : GIdx) :
    ((processBlockA cfg f A b).vox x).last_lidar_occupied =
      (A.vox x).last_lidar_occupied := by
  unfold processBlockA
  split
  · exact foldl_invariant
      (fun X => (X.vox x).last_lidar_occupied = (A.vox x).last_lidar_occupied)
      (phaseAStep cfg f)
      (fun X a hX => (phaseAStep_lidar cfg f X a x).trans hX)
      (blockVoxels A.vps b) A rfl
  · rfl

/-- C9: for every voxel of an allocated block touched by the per-frame
ever-free update, if the voxel has not been sensor-occupied for more than
temporal_buffer frames (last_lidar_occupied < frame_counter -
temporal_buffer), its dynamic flag is false after the update
(ever_free_integrator.cpp lines 68-71, with no later write setting it back). -/
theorem updateEverFreeVoxels_clears_dynamic (cfg : Config) (L : Layer)
    (f : ℤ) (b : BIdx) (g : GIdx) (hb : b ∈ L.updated)
    (hex : L.hasBlock b = true) (hg : g ∈ blockVoxels L.vps b)
    (hlidar : (L.vox g).last_lidar_occupied < f - cfg.temporal_buffer) :
    ((updateEverFreeVoxels cfg L f).vox g).dynamic = false := by
  have hPA : ((L.updated.foldl (processBlockA cfg f) L).vox g).dynamic =
      false := by
    refine foldl_establish (fun X => (X.vox g).dynamic = false)
      (fun X => X.blocks = L.blocks ∧ X.vps = L.vps ∧
        (X.vox g).last_lidar_occupied < f - cfg.temporal_buffer)
      (processBlockA cfg f) b
      (fun X y hX => processBlockA_dyn_mono cfg f X y g hX)
      (fun X y hX => ⟨(processBlockA_struct cfg f X y).1.trans hX.1,
        (processBlockA_struct cfg f X y).2.1.trans hX.2.1,
        by rw [processBlockA_lidar cfg f X y g]; exact hX.2.2⟩)
      (fun X hX => ?_) L.updated L hb ⟨rfl, rfl, hlidar⟩
    have hhb : X.hasBlock b = true := by
      rw [hasBlock_congr hX.1]
      exact hex
    have hmem : g ∈ blockVoxels X.vps b := by
      rw [hX.2.1]
      exact hg
    unfold processBlockA
    rw [if_pos hhb]
    exact foldl_establish (fun Y => (Y.vox g).dynamic = false)
      (fun Y => (Y.vox g).last_lidar_occupied < f - cfg.temporal_buffer)
      (phaseAStep cfg f) g
      (fun Y y hY => phaseAStep_dyn_mono cfg f Y y g hY)
      (fun Y y hY => by
        show ((phaseAStep cfg f Y y).vox g).last_lidar_occupied <
          f - cfg.temporal_buffer
        rw [phaseAStep_lidar cfg f Y y g]
        exact hY)
      (fun Y hY => phaseAStep_clears cfg f Y g hY)
      (blockVoxels X.vps b) X hmem hX.2.2
  simp only [updateEverFreeVoxels]
  exact foldl_invariant (fun X => (X.vox g).dynamic = false)
    (processBlockB cfg f)
    (fun X y hX => by
      show ((processBlockB cfg f X y).vox g).dynamic = false
      unfold processBlockB
      rw [makeEverFree_dynamic cfg X y f g]
      exact hX)
    L.updated _ hPA

/-- Witness for C9: a stale dynamic voxel in the single updated block has its
dynamic flag cleared by the update. -/
theorem updateEverFreeVoxels_clears_dynamic_witness :
    (((0, 0, 0) : BIdx) ∈ wLayerDyn.updated ∧
      wLayerDyn.hasBlock (0, 0, 0) = true ∧
      ((0, 0, 0) : GIdx) ∈ blockVoxels wLayerDyn.vps (0, 0, 0) ∧
      (wLayerDyn.vox (0, 0, 0)).last_lidar_occupied <
        0 - wCfgD.temporal_buffer) ∧
    ((updateEverFreeVoxels wCfgD wLayerDyn 0).vox (0, 0, 0)).dynamic = false :=
  ⟨⟨by decide, by decide, by decide, by decide⟩,
    updateEverFreeVoxels_clears_dynamic wCfgD wLayerDyn 0 (0, 0, 0) (0, 0, 0)
      (by decide) (by decide) (by decide) (by decide)⟩

/-! ## C6: idempotent re-run on unchanged state -/

theorem foldl_blocks {α : Type} (fn : Layer → α → Layer)
    (hf : ∀ X a, (fn X a).blocks = X.blocks) :
    ∀ (l : List α) (A : Layer), (l.foldl fn A).blocks = A.blocks := by
  intro l A
  exact foldl_invariant (fun X => X.blocks = A.blocks) fn
    (fun X a hX => (hf X a).trans hX) l A rfl

theorem phaseB_updated (cfg : Config) (f : ℤ) :
    ∀ (bs : List BIdx) (A : Layer),
      ∀ x ∈ (bs.foldl (processBlockB cfg f) A).updated,
        x ∈ A.updated ∧ (x ∈ bs → A.hasBlock x = false) := by
  intro bs
  induction bs with
  | nil =>
    intro A x hx
    exact ⟨hx, fun h => absurd h (List.not_mem_nil x)⟩
  | cons b t ih =>
    intro A x hx
    have hfold : (b :: t).foldl (processBlockB cfg f) A =
        t.foldl (processBlockB cfg f) (processBlockB cfg f A b) := rfl
    rw [hfold] at hx
    obtain ⟨hmem, himp⟩ := ih (processBlockB cfg f A b) x hx
    have hupd : (processBlockB cfg f A b).updated =
        if A.hasBlock b = true then A.updated.filter (fun z => decide (z ≠ b))
        else A.updated := makeEverFree_updated cfg A b f
    have hblocks : (processBlockB cfg f A b).blocks = A.blocks :=
      makeEverFree_blocks cfg A b f
    have hxA : x ∈ A.updated := by
      rw [hupd] at hmem
      by_cases hhb : A.hasBlock b = true
      · rw [if_pos hhb] at hmem
        exact List.mem_of_mem_filter hmem
      · rw [if_neg hhb] at hmem
        exact hmem
    refine ⟨hxA, fun hxbt => ?_⟩
    rcases List.mem_cons.mp hxbt with hxb | hxt
    · cases hval : A.hasBlock x
      · rfl
      · exfalso
        rw [hupd] at hmem
        have hhbx : A.hasBlock b = true := by
          rw [← hxb]
          exact hval
        rw [if_pos hhbx] at hmem
        have hne : x ≠ b := by simpa using List.of_mem_filter hmem
        exact hne hxb
    · exact (hasBlock_congr hblocks x).symm.trans (himp hxt)

theorem updateEverFreeVoxels_updated_dead (cfg : Config) (L : Layer) (f : ℤ) :
    ∀ x ∈ (updateEverFreeVoxels cfg L f).updated,
      (updateEverFreeVoxels cfg L f).hasBlock x = false := by
  intro x hx
  simp only [updateEverFreeVoxels] at hx ⊢
  have hstruct := foldl_struct (processBlockA cfg f)
    (fun X a => processBlockA_struct cfg f X a) L.updated L
  obtain ⟨hmem, himp⟩ :=
    phaseB_updated cfg f L.updated (L.updated.foldl (processBlockA cfg f) L)
      x hx
  have hxbs : x ∈ L.updated := by
    rw [← hstruct.2.2]
    exact hmem
  have hdead : (L.updated.foldl (processBlockA cfg f) L).hasBlock x = false :=
    himp hxbs
  have hBblocks : (L.updated.foldl (processBlockB cfg f)
      (L.updated.foldl (processBlockA cfg f) L)).blocks =
        (L.updated.foldl (processBlockA cfg f) L).blocks :=
    foldl_blocks (processBlockB cfg f)
      (fun X a => makeEverFree_blocks cfg X a f) L.updated _
  exact (hasBlock_congr hBblocks x).trans hdead

theorem updateEverFreeVoxels_noop (cfg : Config) (L : Layer) (f : ℤ)
    (h : ∀ x ∈ L.updated, L.hasBlock x = false) :
    updateEverFreeVoxels cfg L f = L := by
  simp only [updateEverFreeVoxels]
  have hA : L.updated.foldl (processBlockA cfg f) L = L :=
    foldl_fixed (processBlockA cfg f) L L.updated (fun x hx => by
      unfold processBlockA
      rw [h x hx]
      simp)
  rw [hA]
  exact foldl_fixed (processBlockB cfg f) L L.updated (fun x hx => by
    show processBlockB cfg f L x = L
    unfold processBlockB makeEverFree
    rw [h x hx]
    simp)

/-- C6: invoking the ever-free update twice with the same frame counter and no
intervening map integration or new occupancy produces no further state change
the second time: the second call leaves every cell's ever_free, dynamic,
occ_counter and last_occupied exactly as the first call left them.  The
mechanism is that makeEverFree resets the kEsdf updated flag of every
processed block (ever_free_integrator.cpp line 164), so the second call finds
no allocated updated block. -/
theorem updateEverFreeVoxels_idempotent (cfg : Config) (L : Layer) (f : ℤ)
    (g : GIdx) :
    (((updateEverFreeVoxels cfg (updateEverFreeVoxels cfg L f) f).vox g).ever_free) =
        ((updateEverFreeVoxels cfg L f).vox g).ever_free ∧
      (((updateEverFreeVoxels cfg (updateEverFreeVoxels cfg L f) f).vox g).dynamic) =
        ((updateEverFreeVoxels cfg L f).vox g).dynamic ∧
      (((updateEverFreeVoxels cfg (updateEverFreeVoxels cfg L f) f).vox g).occ_counter) =
        ((updateEverFreeVoxels cfg L f).vox g).occ_counter ∧
      (((updateEverFreeVoxels cfg (updateEverFreeVoxels cfg L f) f).vox g).last_occupied) =
        ((updateEverFreeVoxels cfg L f).vox g).last_occupied := by
  have h2 : updateEverFreeVoxels cfg (updateEverFreeVoxels cfg L f) f =
      updateEverFreeVoxels cfg L f :=
    updateEverFreeVoxels_noop cfg _ f
      (updateEverFreeVoxels_updated_dead cfg L f)
  rw [h2]
  exact ⟨rfl, rfl, rfl, rfl⟩

/-! ## C5: the two integrator implementations differ -/

/-- C5: the integrator step embedded in the orchestrator
(everFreeIntegrationStep) and the standalone integrator (updateEverFreeVoxels
phase A) implement different update rules: on this voxel state (counter one
past the reset threshold, far from any surface, not recently occupied) and
frame counter 0 the standalone step retracts ever-free (its counter test is
greater-or-equal) while the embedded step leaves it set (its counter test is
equality), so the two produce different resulting cell state
(motion_detector.cpp lines 255-280 versus ever_free_integrator.cpp
lines 54-79). -/
theorem integrators_differ :
    (phaseAStep wCfgC 0 wLayerDiff (0, 0, 0)).vox (0, 0, 0) ≠
      (everFreeIntegrationVoxelStep wCfgC wCfgC.counter_to_reset 1 0 wLayerDiff
          (0, 0, 0)).vox (0, 0, 0) := by
  have hL : ((phaseAStep wCfgC 0 wLayerDiff (0, 0, 0)).vox (0, 0, 0)).ever_free
      = false := by
    simp only [phaseAStep]
    rw [if_pos (show (phaseAVoxelUpdate wCfgC 0
        (wLayerDiff.vox (0, 0, 0))).occ_counter ≥ wCfgC.counter_to_reset
      by decide)]
    rw [removeEverFree_vox, if_pos (Or.inl rfl)]
    rfl
  have hR : ((everFreeIntegrationVoxelStep wCfgC wCfgC.counter_to_reset 1 0
      wLayerDiff (0, 0, 0)).vox (0, 0, 0)).ever_free = true := by
    simp only [everFreeIntegrationVoxelStep]
    rw [if_neg (show ¬((wLayerDiff.vox (0, 0, 0)).distance < 3 * 1 / 2 ∨
        (wLayerDiff.vox (0, 0, 0)).curr_occupied = 0) by
      rintro (h | h)
      · revert h
        show ¬((100 : ℚ) < 3 * 1 / 2)
        norm_num
      · exact absurd h (by decide))]
    rw [if_pos (show (wLayerDiff.vox (0, 0, 0)).curr_occupied < 0 - 2
      by decide)]
    rw [if_neg (show ¬(({ wLayerDiff.vox (0, 0, 0) with
        moving := false } : TsdfVoxel).occ_counter = wCfgC.counter_to_reset)
      by decide)]
    rw [setVox_vox, if_pos rfl]
    decide
  intro h
  rw [congrArg TsdfVoxel.ever_free h, hR] at hL
  exact absurd hL (by simp)

/-! ## C4: stage order of the orchestrator -/

/-- C4 counterexample: in the orchestrator the claimed order (index builder,
then ever-free integration, then clustering, then filtered-out derivation)
does not hold: the ever-free integration stage runs after clustering
(motion_detector.cpp lines 139-174). -/
theorem pointcloudCallback_order_cex :
    ¬((pointcloudCallbackStages false false).indexOf Stage.indexBuilder <
        (pointcloudCallbackStages false false).indexOf
          Stage.everFreeIntegration ∧
      (pointcloudCallbackStages false false).indexOf
          Stage.everFreeIntegration <
        (pointcloudCallbackStages false false).indexOf Stage.clustering ∧
      (pointcloudCallbackStages false false).indexOf Stage.clustering <
        (pointcloudCallbackStages false false).indexOf
          Stage.filteredOutDerivation) := by
  decide

/-- C4 amended: for every evaluate/visualize setting the orchestrator runs the
index builder before clustering, clustering before the ever-free integration,
and the ever-free integration before the filtered-out derivation
(motion_detector.cpp lines 139-174). -/
theorem pointcloudCallback_stage_order :
    ∀ evaluate visualize : Bool,
      (pointcloudCallbackStages evaluate visualize).indexOf
          Stage.indexBuilder <
        (pointcloudCallbackStages evaluate visualize).indexOf
          Stage.clustering ∧
      (pointcloudCallbackStages evaluate visualize).indexOf Stage.clustering <
        (pointcloudCallbackStages evaluate visualize).indexOf
          Stage.everFreeIntegration ∧
      (pointcloudCallbackStages evaluate visualize).indexOf
          Stage.everFreeIntegration <
        (pointcloudCallbackStages evaluate visualize).indexOf
          Stage.filteredOutDerivation := by
  decide

/-! ## C7: behavior on a failed transform lookup -/

/-- C7 counterexample: a frame dropped at the transform lookup still changes
the core state, because the frame counter is incremented before the lookup
(motion_detector.cpp line 93): after the dropped frame the counter differs
from its previous value. -/
theorem pointcloudCallback_drop_cex :
    (pointcloudCallback id false
        ⟨0, ⟨1, [], fun _ => wVoxFree, []⟩⟩).frame_counter ≠
      (⟨0, ⟨1, [], fun _ => wVoxFree, []⟩⟩ : MDState).frame_counter := by
  decide

/-- C7 amended: on a failed transform lookup the callback skips all further
work and the only state change is the frame counter, which is incremented
exactly once per invocation whether or not the frame is processed
(motion_detector.cpp lines 91-111). -/
theorem pointcloudCallback_drop_increments_counter :
    ∀ (rest : MDState → MDState) (s : MDState),
      pointcloudCallback rest false s =
          { s with frame_counter := s.frame_counter + 1 } ∧
        pointcloudCallback rest true s =
          rest { s with frame_counter := s.frame_counter + 1 } := by
  intro rest s
  exact ⟨rfl, rfl⟩

/-! ## C8: transient map absence is non-fatal -/

/-- C8: a missing block is treated as absent and never aborts the frame:
(a) in makeEverFree a neighbor lying in an unallocated block blocks promotion,
leaving the voxel's ever-free flag unchanged (ever_free_integrator.cpp
lines 141-145); (b) removeEverFree skips a neighbor in an unallocated block,
leaving that voxel untouched (lines 188-192); (c) the blockwise voxel-to-point
refinement returns without output for an unallocated block, dropping its
points from refinement without error (motion_detector.cpp lines 341-343). -/
theorem map_absence_nonfatal :
    (∀ (cfg : Config) (L : Layer) (b : BIdx) (f : ℤ) (g n : GIdx),
      0 < L.vps → L.hasBlock b = true → g ∈ blockVoxels L.vps b →
      n ∈ neighbors cfg.neighbor_connectivity g →
      L.hasBlock (blockOf L.vps n) = false →
      ((makeEverFree cfg L b f).vox g).ever_free = (L.vox g).ever_free) ∧
    (∀ (cfg : Config) (L : Layer) (g n : GIdx),
      n ∈ neighbors cfg.neighbor_connectivity g →
      blockOf L.vps n ≠ blockOf L.vps g →
      L.hasBlock (blockOf L.vps n) = false →
      (removeEverFree cfg L g).vox n = L.vox n) ∧
    (∀ (L : Layer) (b : BIdx) (pts : List ℕ) (points : List GIdx)
      (classif : List PointInfo),
      L.hasBlock b = false →
      blockwiseBuildVoxel2PointMap L b pts points classif = ([], classif)) := by
  refine ⟨?_, ?_, ?_⟩
  · intro cfg L b f g n hv hb hg hn hmiss
    have hbg : blockOf L.vps g = b := blockOf_of_mem_blockVoxels hv hg
    rw [makeEverFree_vox cfg L b f hb g]
    have hdiff : blockOf L.vps n ≠ blockOf L.vps g := by
      intro heq
      rw [heq, hbg, hb] at hmiss
      exact absurd hmiss (by simp)
    have hbad : neighborOccupiedOrUnobserved cfg f L g n = true := by
      unfold neighborOccupiedOrUnobserved
      rw [if_pos ⟨hdiff, hmiss⟩]
    have hnp : promo cfg f L g = false := by
      cases hval : promo cfg f L g
      · rfl
      · obtain ⟨-, -, -, h4⟩ := (promo_eq_true cfg f L g).mp hval
        have hay : (neighbors cfg.neighbor_connectivity g).any
            (neighborOccupiedOrUnobserved cfg f L g) = true :=
          List.any_eq_true.mpr ⟨n, hn, hbad⟩
        rw [h4] at hay
        exact absurd hay (by simp)
    rw [if_neg (fun hcon => by rw [hnp] at hcon; exact absurd hcon.2 (by simp))]
  · intro cfg L g n hn hdiff hmiss
    rw [removeEverFree_vox]
    rw [if_neg ?_]
    rintro (hng | ⟨-, hc | hc⟩)
    · exact hdiff (by rw [hng])
    · exact hdiff hc
    · rw [hmiss] at hc
      exact absurd hc (by simp)
  · intro L b pts points classif hmiss
    unfold blockwiseBuildVoxel2PointMap
    rw [if_pos hmiss]

/-- Witness for C8 at concrete instances: a promotion blocked by the missing
east block, a retraction that leaves the missing east block untouched, and a
refinement call on an unallocated block. -/
theorem map_absence_nonfatal_witness :
    (0 < wLayerMiss.vps ∧ wLayerMiss.hasBlock (0, 0, 0) = true ∧
      ((0, 0, 0) : GIdx) ∈ blockVoxels wLayerMiss.vps (0, 0, 0) ∧
      ((1, 0, 0) : GIdx) ∈
        neighbors wCfgA.neighbor_connectivity ((0, 0, 0) : GIdx) ∧
      wLayerMiss.hasBlock (blockOf wLayerMiss.vps ((1, 0, 0) : GIdx)) = false ∧
      blockOf wLayerMiss.vps ((1, 0, 0) : GIdx) ≠
        blockOf wLayerMiss.vps ((0, 0, 0) : GIdx) ∧
      wLayerMiss.hasBlock ((5, 5, 5) : BIdx) = false) ∧
    (((makeEverFree wCfgA wLayerMiss (0, 0, 0) 0).vox (0, 0, 0)).ever_free =
        (wLayerMiss.vox (0, 0, 0)).ever_free ∧
      (removeEverFree wCfgA wLayerMiss (0, 0, 0)).vox (1, 0, 0) =
        wLayerMiss.vox (1, 0, 0) ∧
      blockwiseBuildVoxel2PointMap wLayerMiss (5, 5, 5) [0]
          [((5, 5, 5) : GIdx)] [⟨false, false, false⟩] =
        ([], [⟨false, false, false⟩])) :=
  ⟨⟨by decide, by decide, by decide, by decide, by decide, by decide,
      by decide⟩,
    ⟨map_absence_nonfatal.1 wCfgA wLayerMiss (0, 0, 0) 0 (0, 0, 0) (1, 0, 0)
        (by decide) (by decide) (by decide) (by decide) (by decide),
      map_absence_nonfatal.2.1 wCfgA wLayerMiss (0, 0, 0) (1, 0, 0)
        (by decide) (by decide) (by decide),
      map_absence_nonfatal.2.2 wLayerMiss (5, 5, 5) [0] [(5, 5, 5)]
        [⟨false, false, false⟩] (by decide)⟩⟩

end Dynablox
